import Mathlib

/-!
Verification of the BillCheck pipeline (`billcheck_ai.py`).

Text is modelled as `List Char`.  The two validators use Python
`re.findall` with the patterns `\b\d{1,2}%\b` and
`\b[0-9]{2}[A-Z]{5}[0-9]{4}[A-Z][1-9A-Z]Z[0-9A-Z]\b`; we embed a direct
left-to-right scanner for each fixed pattern (character classes are taken
at their ASCII meaning, which is what every claim exercises).  The
summarization model and the external extraction libraries are black
boxes: the model is a function `List Char → Option (List Char)` (`none`
models a raised exception), extraction inputs are `Except` values holding
either the library's result or the exception it raised.
-/

/-- Word character of the regex `\b` boundary (`\w`): letter, digit or underscore. -/
def isWordChar (c : Char) : Bool :=
  c.isAlphanum || c == '_'

/-- Whitespace stripped by Python `str.strip()` (ASCII part). -/
def isPySpace (c : Char) : Bool :=
  c == ' ' || c == '\t' || c == '\n' || c == '\r' || c == '\x0b' || c == '\x0c'

/-- Python `str.strip()`: remove whitespace from both ends. -/
def pyStrip (l : List Char) : List Char :=
  ((l.dropWhile isPySpace).reverse.dropWhile isPySpace).reverse

/-- The character immediately before the current scan position, given the
character `p` before the consumed prefix and the consumed characters. -/
def effPrev (p : Option Char) : List Char → Option Char
  | [] => p
  | c :: u => effPrev (some c) u

/-- A `\b` that opens a match beginning with a word character holds iff the
previous character is absent or not a word character. -/
def prevNonWord : Option Char → Bool
  | none => true
  | some c => !isWordChar c

/-- Does the remaining text start with a word character?  A `\b` placed after
a non-word character (such as the percent sign) holds iff this does. -/
def wordAt : List Char → Bool
  | [] => false
  | c :: _ => isWordChar c

/-- A `\b` placed after a word character holds at end of text or before a
non-word character. -/
def nextNonWord : List Char → Bool
  | [] => true
  | c :: _ => !isWordChar c

/-- One attempt of `\d{1,2}%\b` at the current position (the opening `\b` is
checked by the caller): greedily two digits, else one, then the percent sign,
then the closing boundary — which, the percent sign being a non-word
character, demands a word character right after it.  Returns the matched
token and the rest of the text. -/
def percentAt : List Char → Option (List Char × List Char)
  | a :: b :: c :: rest =>
    if a.isDigit && b.isDigit && c == '%' then
      if wordAt rest then some ([a, b, c], rest) else none
    else if a.isDigit && b == '%' && isWordChar c then
      some ([a, b], c :: rest)
    else none
  | _ => none

/-- Shape of a token the percent matcher can return: one or two digits and a
percent sign. -/
def percentShapeOk : List Char → Bool
  | [a, b] => a.isDigit && b == '%'
  | [a, b, c] => a.isDigit && b.isDigit && c == '%'
  | _ => false

/-- Left-to-right non-overlapping `re.findall` scan for `\b\d{1,2}%\b`:
attempt a match at each position, resume right after each match.  The fuel
only bounds the recursion; the text length always suffices because every
step consumes at least one character. -/
def percentScan : Nat → Option Char → List Char → List (List Char)
  | 0, _, _ => []
  | _ + 1, _, [] => []
  | fuel + 1, prev, c :: rest =>
    if prevNonWord prev then
      match percentAt (c :: rest) with
      | some (m, after) => m :: percentScan fuel (effPrev prev m) after
      | none => percentScan fuel (some c) rest
    else percentScan fuel (some c) rest

/-- All matches of the tax-rate pattern in the text, in text order. -/
def percentFindAll (text : List Char) : List (List Char) :=
  percentScan text.length none text

/-- The allow-list `valid_rates` of the source. -/
def valid_rates : List (List Char) :=
  [['0', '%'], ['5', '%'], ['1', '2', '%'], ['1', '8', '%'], ['2', '8', '%']]

/-- `detect_fake_tax_rates`: the percent tokens found in the text that are
not on the allow-list, duplicates and text order preserved. -/
def detect_fake_tax_rates (text : List Char) : List (List Char) :=
  (percentFindAll text).filter (fun rate => decide (rate ∉ valid_rates))

/-- The 15 character classes of the pattern
`[0-9]{2}[A-Z]{5}[0-9]{4}[A-Z][1-9A-Z]Z[0-9A-Z]`. -/
def gstinShapeOk : List Char → Bool
  | [a, b, c, d, e, f, g, h, i, j, k, l, m, n, o] =>
    a.isDigit && b.isDigit && c.isUpper && d.isUpper && e.isUpper &&
    f.isUpper && g.isUpper && h.isDigit && i.isDigit && j.isDigit &&
    k.isDigit && l.isUpper && ((m.isDigit && !(m == '0')) || m.isUpper) &&
    n == 'Z' && (o.isDigit || o.isUpper)
  | _ => false

/-- One attempt of the tax-identifier pattern at the current position: the 15
fixed character classes, then the closing `\b` (the pattern ends in a word
character, so the next character must be absent or non-word). -/
def gstinAt (l : List Char) : Option (List Char × List Char) :=
  if gstinShapeOk (l.take 15) && nextNonWord (l.drop 15) then
    some (l.take 15, l.drop 15)
  else none

/-- Left-to-right non-overlapping `re.findall` scan for the tax-identifier
pattern; fuel as in `percentScan`. -/
def gstinScan : Nat → Option Char → List Char → List (List Char)
  | 0, _, _ => []
  | _ + 1, _, [] => []
  | fuel + 1, prev, c :: rest =>
    if prevNonWord prev then
      match gstinAt (c :: rest) with
      | some (m, after) => m :: gstinScan fuel (effPrev prev m) after
      | none => gstinScan fuel (some c) rest
    else gstinScan fuel (some c) rest

/-- All matches of the tax-identifier pattern in the text, in text order. -/
def gstinFindAll (text : List Char) : List (List Char) :=
  gstinScan text.length none text

/-- The sentinel returned when no tax identifier matches. -/
def gstin_sentinel : List Char :=
  "❌ No valid GSTIN found or possibly fake format.".data

/-- `check_gstin_validity`: the matches, or the one-element sentinel list
when there is none (`gstins if gstins else [...]`). -/
def check_gstin_validity (text : List Char) : List (List Char) :=
  let gstins := gstinFindAll text
  if gstins = [] then [gstin_sentinel] else gstins

/-- Python `range(0, stop, step)` for a positive step. -/
def pyRange (stop step : Nat) : List Nat :=
  (List.range ((stop + step - 1) / step)).map (fun k => k * step)

/-- Python slice `text[i : i + n]`. -/
def pySlice (text : List Char) (i n : Nat) : List Char :=
  (text.drop i).take n

/-- The chunk list built in `generate_summary`:
`[text[i:i+400] for i in range(0, min(len(text), 1200), 400)]`. -/
def pyChunks (text : List Char) : List (List Char) :=
  (pyRange (min text.length 1200) 400).map (fun i => pySlice text i 400)

/-- The placeholder appended when summarizing one chunk fails. -/
def summary_placeholder : List Char := "[Error summarizing this part]".data

/-- `generate_summary`.  The first argument is the module-level `summarizer`:
`none` when loading the model failed, otherwise the model call as a black
box whose `none` result models a raised exception (caught per chunk). -/
def generate_summary (summarizer : Option (List Char → Option (List Char)))
    (text : List Char) : List Char :=
  match summarizer with
  | none => "❌ Summarizer model could not be loaded.".data
  | some f =>
    let chunks := pyChunks text
    let summary := chunks.foldl
      (fun acc chunk =>
        if (pyStrip chunk).length < 30 then acc
        else
          match f chunk with
          | some out => acc ++ out ++ "\n\n".data
          | none => acc ++ summary_placeholder ++ "\n\n".data) []
    if pyStrip summary = [] then "No summary generated.".data else pyStrip summary

/-- `extract_text_from_pdf`: the argument is the outcome of the external
parse (`fitz.open` and per-page text, raising modelled by `Except.error`).
The source wraps nothing in a handler, so a failure propagates; on success
the page texts are joined with a newline. -/
def extract_text_from_pdf (parsed : Except String (List (List Char))) :
    Except String (List Char) :=
  match parsed with
  | Except.error e => Except.error e
  | Except.ok pages => Except.ok (List.intercalate ['\n'] pages)

/-- `extract_text_from_image`: the argument is the outcome of decoding plus
OCR; the source catches every exception and returns the empty string. -/
def extract_text_from_image (ocr : Except String (List Char)) : List Char :=
  match ocr with
  | Except.error _ => []
  | Except.ok t => t

/-- The tax-identifier shape exactly as the claim words it: 2 digits, 5
uppercase letters, 4 digits, 1 uppercase letter, 1 alphanumeric-uppercase
character, the literal Z, 1 alphanumeric-uppercase character.  (Second
definition, written from the claim, to compare with `gstinShapeOk`.) -/
def claimGstinShape : List Char → Bool
  | [a, b, c, d, e, f, g, h, i, j, k, l, m, n, o] =>
    a.isDigit && b.isDigit && c.isUpper && d.isUpper && e.isUpper &&
    f.isUpper && g.isUpper && h.isDigit && i.isDigit && j.isDigit &&
    k.isDigit && l.isUpper && (m.isDigit || m.isUpper) &&
    n == 'Z' && (o.isDigit || o.isUpper)
  | _ => false

theorem effPrev_append (p : Option Char) (u v : List Char) :
    effPrev p (u ++ v) = effPrev (effPrev p u) v := by
  induction u generalizing p with
  | nil => rfl
  | cons c u ih => simpa [effPrev] using ih (some c)

theorem percentAt_sound {l m after : List Char}
    (h : percentAt l = some (m, after)) :
    l = m ++ after ∧ percentShapeOk m = true ∧ wordAt after = true := by
  match l with
  | [] => simp [percentAt] at h
  | [a] => simp [percentAt] at h
  | [a, b] => simp [percentAt] at h
  | a :: b :: c :: rest =>
    simp only [percentAt] at h
    split at h
    · split at h
      · rename_i h1 h2
        obtain ⟨hm, ha⟩ := Prod.mk.injEq .. ▸ Option.some.injEq .. ▸ h
        subst hm; subst ha
        simp_all [percentShapeOk]
      · exact absurd h (by simp)
    · split at h
      · rename_i h1 h2
        obtain ⟨hm, ha⟩ := Prod.mk.injEq .. ▸ Option.some.injEq .. ▸ h
        subst hm; subst ha
        simp_all [percentShapeOk, wordAt]
      · exact absurd h (by simp)

theorem percentScan_sound :
    ∀ (fuel : Nat) (prev : Option Char) (l r : List Char),
      r ∈ percentScan fuel prev l →
      ∃ u v, l = u ++ r ++ v ∧ prevNonWord (effPrev prev u) = true ∧
        percentShapeOk r = true ∧ wordAt v = true := by
  intro fuel
  induction fuel with
  | zero => intro prev l r h; simp [percentScan] at h
  | succ fuel ih =>
    intro prev l r h
    match l with
    | [] => simp [percentScan] at h
    | c :: rest =>
      simp only [percentScan] at h
      split at h
      · rename_i hb
        split at h
        · rename_i m after hm
          obtain ⟨hl, hshape, hword⟩ := percentAt_sound hm
          rcases List.mem_cons.mp h with h | h
          · subst h
            exact ⟨[], after, by simpa using hl, by simpa [effPrev] using hb,
              hshape, hword⟩
          · obtain ⟨u, v, hafter, hprev, hsh, hw⟩ := ih _ after r h
            refine ⟨m ++ u, v, ?_, ?_, hsh, hw⟩
            · rw [hl, hafter]; simp [List.append_assoc]
            · rwa [effPrev_append]
        · obtain ⟨u, v, hrest, hprev, hsh, hw⟩ := ih _ rest r h
          exact ⟨c :: u, v, by simp [hrest], by simpa [effPrev] using hprev,
            hsh, hw⟩
      · obtain ⟨u, v, hrest, hprev, hsh, hw⟩ := ih _ rest r h
        exact ⟨c :: u, v, by simp [hrest], by simpa [effPrev] using hprev,
          hsh, hw⟩

theorem gstinAt_sound {l m after : List Char}
    (h : gstinAt l = some (m, after)) :
    l = m ++ after ∧ gstinShapeOk m = true ∧ nextNonWord after = true := by
  simp only [gstinAt] at h
  split at h
  · rename_i hc
    obtain ⟨hm, ha⟩ := Prod.mk.injEq .. ▸ Option.some.injEq .. ▸ h
    subst hm; subst ha
    simp_all [List.take_append_drop]
  · exact absurd h (by simp)

theorem gstinScan_sound :
    ∀ (fuel : Nat) (prev : Option Char) (l r : List Char),
      r ∈ gstinScan fuel prev l →
      ∃ u v, l = u ++ r ++ v ∧ prevNonWord (effPrev prev u) = true ∧
        gstinShapeOk r = true ∧ nextNonWord v = true := by
  intro fuel
  induction fuel with
  | zero => intro prev l r h; simp [gstinScan] at h
  | succ fuel ih =>
    intro prev l r h
    match l with
    | [] => simp [gstinScan] at h
    | c :: rest =>
      simp only [gstinScan] at h
      split at h
      · rename_i hb
        split at h
        · rename_i m after hm
          obtain ⟨hl, hshape, hword⟩ := gstinAt_sound hm
          rcases List.mem_cons.mp h with h | h
          · subst h
            exact ⟨[], after, by simpa using hl, by simpa [effPrev] using hb,
              hshape, hword⟩
          · obtain ⟨u, v, hafter, hprev, hsh, hw⟩ := ih _ after r h
            refine ⟨m ++ u, v, ?_, ?_, hsh, hw⟩
            · rw [hl, hafter]; simp [List.append_assoc]
            · rwa [effPrev_append]
        · obtain ⟨u, v, hrest, hprev, hsh, hw⟩ := ih _ rest r h
          exact ⟨c :: u, v, by simp [hrest], by simpa [effPrev] using hprev,
            hsh, hw⟩
      · obtain ⟨u, v, hrest, hprev, hsh, hw⟩ := ih _ rest r h
        exact ⟨c :: u, v, by simp [hrest], by simpa [effPrev] using hprev,
          hsh, hw⟩

theorem pyChunks_length (t : List Char) :
    (pyChunks t).length = (min t.length 1200 + 399) / 400 := by
  simp [pyChunks, pyRange]

theorem pyChunks_eq_range_map (t : List Char) :
    pyChunks t = (List.range ((min t.length 1200 + 399) / 400)).map
      (fun j => pySlice t (j * 400) 400) := by
  simp [pyChunks, pyRange, List.map_map, Function.comp]

theorem pyChunks_get (t : List Char) (i : Nat) (h : i < (pyChunks t).length) :
    (pyChunks t).get ⟨i, h⟩ = (t.drop (i * 400)).take 400 := by
  simp only [List.get_eq_getElem]
  rw [List.getElem_of_eq (pyChunks_eq_range_map t)]
  simp [pySlice]

theorem pyChunks_mem_length_le {t c : List Char} (h : c ∈ pyChunks t) :
    c.length ≤ 400 := by
  rw [pyChunks_eq_range_map] at h
  obtain ⟨j, _, rfl⟩ := List.mem_map.mp h
  simp [pySlice, List.length_take]

theorem range_slices_join (t : List Char) (s : Nat) :
    ∀ k, (((List.range k).map (fun j => pySlice t (j * s) s)).flatten
      = t.take (k * s)) := by
  intro k
  induction k with
  | zero => simp
  | succ k ih =>
    rw [List.range_succ, List.map_append, List.flatten_append, ih]
    simp only [List.map_cons, List.map_nil, List.flatten_cons, List.flatten_nil,
      List.append_nil, pySlice]
    rw [Nat.succ_mul, List.take_add]

theorem pyChunks_join (t : List Char) :
    (pyChunks t).flatten = t.take (min t.length 1200) := by
  rw [pyChunks_eq_range_map, range_slices_join]
  rcases le_or_lt t.length 1200 with hle | hlt
  · have hmin : min t.length 1200 = t.length := Nat.min_eq_left hle
    rw [hmin]
    have hbig : t.length ≤ (t.length + 399) / 400 * 400 := by omega
    rw [List.take_of_length_le hbig, List.take_length]
  · have hmin : min t.length 1200 = 1200 := Nat.min_eq_right (Nat.le_of_lt hlt)
    rw [hmin]

theorem foldl_skip_append (p : List Char → Prop) [DecidablePred p]
    (g : List Char → List Char) :
    ∀ (l : List (List Char)) (acc : List Char),
      l.foldl (fun acc chunk => if p chunk then acc else acc ++ g chunk) acc =
      acc ++ ((l.filter (fun c => !decide (p c))).map g).flatten := by
  intro l
  induction l with
  | nil => intro acc; simp
  | cons c l ih =>
    intro acc
    by_cases h : p c
    · simp [List.foldl_cons, h, ih]
    · simp [List.foldl_cons, h, ih]

theorem generate_summary_eq (f : List Char → Option (List Char))
    (text : List Char) :
    generate_summary (some f) text =
      (let raw := (((pyChunks text).filter
          (fun c => !decide ((pyStrip c).length < 30))).map
          (fun chunk => (match f chunk with
            | some out => out
            | none => summary_placeholder) ++ "\n\n".data)).flatten
       if pyStrip raw = [] then "No summary generated.".data
       else pyStrip raw) := by
  have hstep : (fun (acc chunk : List Char) =>
      if (pyStrip chunk).length < 30 then acc
      else
        match f chunk with
        | some out => acc ++ out ++ "\n\n".data
        | none => acc ++ summary_placeholder ++ "\n\n".data) =
    (fun (acc chunk : List Char) =>
      if (pyStrip chunk).length < 30 then acc
      else acc ++ ((match f chunk with
        | some out => out
        | none => summary_placeholder) ++ "\n\n".data)) := by
    funext acc chunk
    by_cases h : (pyStrip chunk).length < 30
    · simp [h]
    · cases hfc : f chunk <;> simp [h, hfc, List.append_assoc]
  simp only [generate_summary, hstep, foldl_skip_append, List.nil_append]

theorem pyStrip_ne_nil {l : List Char} {c : Char} (hc : c ∈ l)
    (hns : isPySpace c = false) : pyStrip l ≠ [] := by
  intro h
  have hmem : c ∈ l.dropWhile isPySpace := by
    rcases List.mem_append.mp
      ((List.takeWhile_append_dropWhile (p := isPySpace) (l := l)) ▸ hc) with
      hmem | hmem
    · exact absurd (List.mem_takeWhile_imp hmem) (by simp [hns])
    · exact hmem
  rw [pyStrip, List.reverse_eq_nil_iff, List.dropWhile_eq_nil_iff] at h
  exact absurd (h c (by simpa using hmem)) (by simp [hns])

/-- C1 (counterexample): the claim promises that an input containing the
token 17% yields the output [17%]; on the text consisting of exactly the
three characters 17% the validator returns the empty list, because the
closing word boundary of the pattern fails after a percent sign that is not
followed by a word character. -/
theorem claim_C1_counterexample :
    detect_fake_tax_rates ("17%".data) = [] ∧
    detect_fake_tax_rates ("17%".data) ≠ ["17%".data] := by
  decide

/-- C1 (amended): every reported rate is a one-or-two-digit percent token
outside the allow-list that occurs in the text preceded by start of text or
a non-word character and followed immediately by a word character; an input
containing 17% directly followed by a word character yields [17%], and an
input whose only percent tokens are allow-listed 5% and 18% yields the
empty list. -/
theorem claim_C1 :
    (∀ t r, r ∈ detect_fake_tax_rates t →
      percentShapeOk r = true ∧ r ∉ valid_rates ∧
      ∃ u v, t = u ++ r ++ v ∧ prevNonWord (effPrev none u) = true ∧
        wordAt v = true) ∧
    detect_fake_tax_rates ("17%x".data) = ["17%".data] ∧
    detect_fake_tax_rates ("5%a and 18%b".data) = [] := by
  refine ⟨?_, by decide, by decide⟩
  intro t r hr
  obtain ⟨hmem, hval⟩ := List.mem_filter.mp hr
  obtain ⟨u, v, h1, h2, h3, h4⟩ := percentScan_sound _ none t r hmem
  exact ⟨h3, of_decide_eq_true hval, u, v, h1, h2, h4⟩

/-- C1 (witness): the amended theorem applied to the concrete text 17%x and
its reported token 17%. -/
theorem claim_C1_witness :
    percentShapeOk ("17%".data) = true ∧ "17%".data ∉ valid_rates ∧
    ∃ u v, "17%x".data = u ++ "17%".data ++ v ∧
      prevNonWord (effPrev none u) = true ∧ wordAt v = true :=
  claim_C1.1 ("17%x".data) ("17%".data) (by decide)

/-- C2 (counterexample): the claim describes the 13th character as
alphanumeric-uppercase, but the code's class there is [1-9A-Z]; the string
22AAAAA0000A0Z5 fits the claim's shape, yet the validator reports the
sentinel (no match) on it because its 13th character is the digit 0. -/
theorem claim_C2_counterexample :
    claimGstinShape ("22AAAAA0000A0Z5".data) = true ∧
    check_gstin_validity ("22AAAAA0000A0Z5".data) = [gstin_sentinel] ∧
    "22AAAAA0000A0Z5".data ∉
      check_gstin_validity ("22AAAAA0000A0Z5".data) := by
  refine ⟨by decide, by decide, ?_⟩
  intro h
  rw [show check_gstin_validity ("22AAAAA0000A0Z5".data) = [gstin_sentinel]
    from by decide] at h
  exact absurd h (by decide)

/-- C2 (amended): every match returned by the scan is a 15-character string
of shape 2 digits, 5 uppercase letters, 4 digits, 1 uppercase letter, 1
character that is a digit 1-9 or an uppercase letter, the literal Z, and 1
digit-or-uppercase character, occurring in the text delimited by word
boundaries; when at least one match exists the validator returns exactly
the matches in text order, and the input 22AAAAA0000A1Z5 yields that exact
string. -/
theorem claim_C2 :
    (∀ t g, g ∈ gstinFindAll t →
      gstinShapeOk g = true ∧
      ∃ u v, t = u ++ g ++ v ∧ prevNonWord (effPrev none u) = true ∧
        nextNonWord v = true) ∧
    (∀ t, gstinFindAll t ≠ [] → check_gstin_validity t = gstinFindAll t) ∧
    check_gstin_validity ("22AAAAA0000A1Z5".data) =
      ["22AAAAA0000A1Z5".data] := by
  refine ⟨?_, ?_, by decide⟩
  · intro t g hg
    obtain ⟨u, v, h1, h2, h3, h4⟩ := gstinScan_sound _ none t g hg
    exact ⟨h3, u, v, h1, h2, h4⟩
  · intro t h
    simp [check_gstin_validity, h]

/-- C2 (witness): the amended theorem applied to the one-match text
22AAAAA0000A1Z5 and its reported match. -/
theorem claim_C2_witness :
    gstinShapeOk ("22AAAAA0000A1Z5".data) = true ∧
    ∃ u v, "22AAAAA0000A1Z5".data = u ++ "22AAAAA0000A1Z5".data ++ v ∧
      prevNonWord (effPrev none u) = true ∧ nextNonWord v = true :=
  claim_C2.1 ("22AAAAA0000A1Z5".data) ("22AAAAA0000A1Z5".data) (by decide)

/-- C3 (counterexample): on a text of 1201 characters the chunker keeps only
the first 1200, so the concatenation of the chunks does not reconstruct the
original text. -/
theorem claim_C3_counterexample :
    (pyChunks (List.replicate 1201 'a')).flatten ≠ List.replicate 1201 'a' := by
  intro h
  rw [pyChunks_join] at h
  have hlen := congrArg List.length h
  rw [List.length_take, List.length_replicate] at hlen
  omega

/-- C3 (amended): the chunker yields exactly (min(L,1200) + 399) / 400
chunks (the ceiling of min(L,1200)/400), chunk i is the slice
[i*400, i*400+400) of the text, every chunk has length at most 400, and the
concatenation of the chunks reconstructs the first min(L,1200) characters
of the text in order (the whole text whenever L is at most 1200). -/
theorem claim_C3 (t : List Char) :
    (pyChunks t).length = (min t.length 1200 + 399) / 400 ∧
    (∀ i (h : i < (pyChunks t).length),
      (pyChunks t).get ⟨i, h⟩ = (t.drop (i * 400)).take 400) ∧
    (∀ c, c ∈ pyChunks t → c.length ≤ 400) ∧
    (pyChunks t).flatten = t.take (min t.length 1200) :=
  ⟨pyChunks_length t, fun i h => pyChunks_get t i h,
    fun _ hc => pyChunks_mem_length_le hc, pyChunks_join t⟩

/-- C3 (witness): the amended theorem applied to a concrete six-character
text, its single chunk, and index 0. -/
theorem claim_C3_witness :
    (pyChunks ("abcdef".data)).get ⟨0, by decide⟩ =
      (("abcdef".data).drop (0 * 400)).take 400 ∧
    ("abcdef".data).length ≤ 400 :=
  ⟨(claim_C3 ("abcdef".data)).2.1 0 (by decide),
    (claim_C3 ("abcdef".data)).2.2.1 ("abcdef".data) (by decide)⟩

/-- C4 (counterexample): a failing PDF parse propagates out of
`extract_text_from_pdf` instead of being turned into the empty string —
the function body has no handler. -/
theorem claim_C4_counterexample :
    extract_text_from_pdf (Except.error "malformed pdf") ≠
      Except.ok [] := by
  intro h
  simp [extract_text_from_pdf] at h

/-- C4 (amended): only the image extractor recovers from a failure by
returning the empty string; the PDF extractor propagates the error raised
by the parse, and on success each extractor returns the library's text
(pages joined by a newline for PDF). -/
theorem claim_C4 :
    (∀ e, extract_text_from_pdf (Except.error e) = Except.error e) ∧
    (∀ pages, extract_text_from_pdf (Except.ok pages) =
      Except.ok (List.intercalate ['\n'] pages)) ∧
    (∀ e, extract_text_from_image (Except.error e) = []) ∧
    (∀ t, extract_text_from_image (Except.ok t) = t) :=
  ⟨fun _ => rfl, fun _ => rfl, fun _ => rfl, fun _ => rfl⟩

/-- C4 (witness): the amended theorem applied to a concrete failing image
decode. -/
theorem claim_C4_witness :
    extract_text_from_image (Except.error "bad image") = [] :=
  claim_C4.2.2.1 "bad image"

/-- C5 (counterexample): with one non-skipped chunk and an always-failing
model, the claim's Summary — placeholder line followed by a blank line —
differs from what the code returns: the final `strip()` removes the
trailing blank line. -/
theorem claim_C5_counterexample :
    generate_summary (some (fun _ => none))
      ("aaaaaaaaaaaaaaaaaaaaaaaaaaaaaaaaaaaaaaaa".data) =
      summary_placeholder ∧
    summary_placeholder ≠ summary_placeholder ++ "\n\n".data := by
  decide

/-- C5 (amended): with the summarizer initialized and the model call always
failing, every chunk of trimmed length below 30 is skipped, each remaining
chunk contributes the fixed placeholder line followed by a blank line, and
the returned Summary is that concatenation with surrounding whitespace
stripped (so without the final blank line) — or the fixed no-summary
message when no chunk survives. -/
theorem claim_C5 (text : List Char) :
    generate_summary (some (fun _ => none)) text =
      (if ((pyChunks text).filter
            (fun c => !decide ((pyStrip c).length < 30))).length = 0
       then "No summary generated.".data
       else pyStrip ((List.replicate
          ((pyChunks text).filter
            (fun c => !decide ((pyStrip c).length < 30))).length
          (summary_placeholder ++ "\n\n".data)).flatten)) := by
  rw [generate_summary_eq]
  have hmap : ((pyChunks text).filter
      (fun c => !decide ((pyStrip c).length < 30))).map
      (fun chunk => (match (fun _ => (none : Option (List Char))) chunk with
        | some out => out
        | none => summary_placeholder) ++ "\n\n".data) =
    List.replicate ((pyChunks text).filter
      (fun c => !decide ((pyStrip c).length < 30))).length
      (summary_placeholder ++ "\n\n".data) := List.map_const' _ _
  rw [hmap]
  by_cases h0 : ((pyChunks text).filter
      (fun c => !decide ((pyStrip c).length < 30))).length = 0
  · rw [h0]
    simp [pyStrip]
  · obtain ⟨k, hk⟩ : ∃ k, ((pyChunks text).filter
        (fun c => !decide ((pyStrip c).length < 30))).length = k + 1 :=
      ⟨((pyChunks text).filter
        (fun c => !decide ((pyStrip c).length < 30))).length - 1, by omega⟩
    rw [hk]
    have hne : pyStrip ((List.replicate (k + 1)
        (summary_placeholder ++ "\n\n".data)).flatten) ≠ [] := by
      apply pyStrip_ne_nil (c := '[')
      · rw [List.replicate_succ, List.flatten_cons]
        exact List.mem_append_left _ (List.mem_append_left _ (by decide))
      · decide
    rw [if_neg hne, if_neg (by omega : ¬(k + 1 = 0))]

/-- C5 (witness): the amended theorem applied to a concrete 40-character
text, which forms one non-skipped chunk. -/
theorem claim_C5_witness :
    generate_summary (some (fun _ => none))
      ("aaaaaaaaaaaaaaaaaaaaaaaaaaaaaaaaaaaaaaaa".data) =
      (if ((pyChunks ("aaaaaaaaaaaaaaaaaaaaaaaaaaaaaaaaaaaaaaaa".data)).filter
            (fun c => !decide ((pyStrip c).length < 30))).length = 0
       then "No summary generated.".data
       else pyStrip ((List.replicate
          ((pyChunks ("aaaaaaaaaaaaaaaaaaaaaaaaaaaaaaaaaaaaaaaa".data)).filter
            (fun c => !decide ((pyStrip c).length < 30))).length
          (summary_placeholder ++ "\n\n".data)).flatten)) :=
  claim_C5 ("aaaaaaaaaaaaaaaaaaaaaaaaaaaaaaaaaaaaaaaa".data)

/-- C6: on the empty text, with the summarizer initialized (any model
function), the pipeline stages yield zero chunks, the fixed no-summary
message, an empty tax-rate finding list, and the single sentinel tax-ID
finding — no stage fails. -/
theorem claim_C6 (f : List Char → Option (List Char)) :
    pyChunks [] = [] ∧
    generate_summary (some f) [] = "No summary generated.".data ∧
    detect_fake_tax_rates [] = [] ∧
    check_gstin_validity [] = [gstin_sentinel] :=
  ⟨rfl, rfl, rfl, rfl⟩

/-- C6 (witness): the theorem applied to a concrete model function. -/
theorem claim_C6_witness :
    generate_summary (some (fun t => some t)) [] =
      "No summary generated.".data :=
  (claim_C6 (fun t => some t)).2.1

/-- C7: the tax-ID validator returns the one-element sentinel list exactly
when the text has no match; the sentinel itself can never be among the
matches (it does not fit the 15-character shape), and the returned findings
sequence is never empty. -/
theorem claim_C7 (t : List Char) :
    (check_gstin_validity t = [gstin_sentinel] ↔ gstinFindAll t = []) ∧
    gstin_sentinel ∉ gstinFindAll t ∧
    check_gstin_validity t ≠ [] := by
  have hs : gstin_sentinel ∉ gstinFindAll t := by
    intro hmem
    obtain ⟨u, v, h1, h2, h3, h4⟩ := gstinScan_sound _ none t _ hmem
    exact absurd h3 (by decide)
  refine ⟨⟨?_, ?_⟩, hs, ?_⟩
  · intro h
    by_cases hne : gstinFindAll t = []
    · exact hne
    · exfalso
      have h2 : gstinFindAll t = [gstin_sentinel] := by
        rw [check_gstin_validity] at h
        simpa [hne] using h
      exact hs (by rw [h2]; exact List.mem_singleton_self _)
  · intro h
    simp [check_gstin_validity, h]
  · intro h
    rw [check_gstin_validity] at h
    by_cases hne : gstinFindAll t = []
    · simp [hne] at h
    · simp only [hne, if_neg] at h
      exact hne h

/-- C7 (witness): the theorem applied to a concrete no-match text. -/
theorem claim_C7_witness :
    (check_gstin_validity ("hello".data) = [gstin_sentinel] ↔
      gstinFindAll ("hello".data) = []) ∧
    gstin_sentinel ∉ gstinFindAll ("hello".data) ∧
    check_gstin_validity ("hello".data) ≠ [] :=
  claim_C7 ("hello".data)

/-- C8: when the summarizer failed to initialize, every input text yields
the fixed unavailable message. -/
theorem claim_C8 (text : List Char) :
    generate_summary none text =
      "❌ Summarizer model could not be loaded.".data := rfl

/-- C8 (witness): the theorem applied to a concrete text. -/
theorem claim_C8_witness :
    generate_summary none ("some bill text".data) =
      "❌ Summarizer model could not be loaded.".data :=
  claim_C8 ("some bill text".data)

/-- C9: both validators are functions of the text alone, so running either
twice on identical text yields identical output. -/
theorem claim_C9 (t₁ t₂ : List Char) (h : t₁ = t₂) :
    detect_fake_tax_rates t₁ = detect_fake_tax_rates t₂ ∧
    check_gstin_validity t₁ = check_gstin_validity t₂ := by
  rw [h]
  exact ⟨rfl, rfl⟩

/-- C9 (witness): the theorem applied to two copies of a concrete text. -/
theorem claim_C9_witness :
    detect_fake_tax_rates ("17%x".data) = detect_fake_tax_rates ("17%x".data) ∧
    check_gstin_validity ("17%x".data) = check_gstin_validity ("17%x".data) :=
  claim_C9 ("17%x".data) ("17%x".data) rfl

/-- C10: the summarizer output is never the empty string: it is the
unavailable message, the no-summary message, or a non-empty stripped
concatenation of per-chunk results. -/
theorem claim_C10 (summarizer : Option (List Char → Option (List Char)))
    (text : List Char) : generate_summary summarizer text ≠ [] := by
  cases summarizer with
  | none =>
    intro h
    have h2 : ("❌ Summarizer model could not be loaded.".data : List Char)
        = [] := h
    exact absurd (congrArg List.length h2) (by decide)
  | some f =>
    simp only [generate_summary]
    split
    · intro h
      exact absurd (congrArg List.length h) (by decide)
    · rename_i hne
      exact hne

/-- C10 (witness): the theorem applied to a concrete uninitialized
summarizer and text. -/
theorem claim_C10_witness : generate_summary none ("x".data) ≠ [] :=
  claim_C10 none ("x".data)
